import Mathlib

/-!
Verification development for the `mpfshell` interactive shell
(`src/mp/mpfshell.py`).  The shell dispatcher (`MpFileShell`) is embedded
shallowly: each `do_*` command handler becomes a Lean function from the
shell state (and the command argument string) to a result record holding
the new state, the displayed output, the trace of delegated File-Explorer
calls, and any exception escaping the handler.

The File Explorer itself (`mp/mpfexp.py`), the tokenizer and the pyboard
layer are not part of the given sources; their operations are modelled
from the specification (marked `Modelled from the spec:` below).  The
tokenizer is kept fully abstract: handlers take the tokenizing function as
a parameter, so theorems quantify over every possible tokenizer.
-/

set_option maxHeartbeats 1000000
set_option linter.unusedVariables false

namespace Mpfs

/-- Error kinds crossing the File-Explorer boundary.  In the Python
sources `RemoteIOError` is an `IOError`; `PyboardError` (protocol layer)
is not; `attributeError` models Python's `AttributeError` raised when a
`None` session object is dereferenced. -/
inductive FErr where
  | remoteIOError (msg : String)
  | ioError (msg : String)
  | pyboardError (msg : String)
  | attributeError
deriving DecidableEq

/-- Whether a Python `except IOError:` clause catches this error. -/
def FErr.isIOError : FErr → Bool
  | .remoteIOError _ => true
  | .ioError _ => true
  | _ => false

/-- The text `str(e)` displayed for the error. -/
def FErr.msg : FErr → String
  | .remoteIOError m => m
  | .ioError m => m
  | .pyboardError m => m
  | .attributeError => "AttributeError"

/-- Modelled from the spec: the remote device filesystem seen through the
File Explorer (`mp/mpfexp.py` is not among the given sources).  `dirs`
maps each existing directory's absolute path to its raw listing (one
`(name, kind)` pair per entry, kind `'F'` or `'D'`); `files` maps file
paths to their textual content. -/
structure Fs where
  dirs : List (String × List (String × Char))
  files : List (String × String)
deriving DecidableEq

/-- Modelled from the spec: the Connection Session state of one
`MpFileExplorer` instance: the device filesystem, the tracked current
remote directory, the host-side files visible to `put`/`mpy_cross`, and
a pending protocol failure.  Per §5 a timeout aborts the current
operation, and per §7 such a failure surfaces as a protocol error
(`PyboardError` in the Python sources, `ProtocolError` in the spec's
taxonomy) which the File Explorer never swallows: it propagates to the
shell handler untouched.  `protocolFailure = some m` means the next
delegated filesystem mutation or transfer raises `PyboardError m`;
`cd` and `ls` are modelled with the `RemoteIOError` failure their
§4.2 contract rows describe, and `close` per §4.1 is always safe. -/
structure Fe where
  fs : Fs
  cwd : String
  localFiles : List (String × String)
  localDirs : List String
  protocolFailure : Option String
deriving DecidableEq

/-- `pwd()` returns the tracked current directory; it never round-trips. -/
def Fe.pwd (f : Fe) : String := f.cwd

/-- Modelled from the spec: `cd(path)` verifies existence and changes
directory; on success it updates the tracked directory, on a missing path
it fails with `RemoteIOError` leaving the tracked directory unchanged. -/
def Fe.cd (f : Fe) (path : String) : Except FErr Fe :=
  if (f.fs.dirs.lookup path).isSome then .ok { f with cwd := path }
  else .error (.remoteIOError ("No such directory: " ++ path))

/-- Modelled from the spec: `ls` returns one `(name, kind)` pair per entry
of the current directory. -/
def Fe.ls (f : Fe) : Except FErr (List (String × Char)) :=
  match f.fs.dirs.lookup f.cwd with
  | some entries => .ok entries
  | none => .error (.remoteIOError ("No such directory: " ++ f.cwd))

/-- Modelled from the spec: `md(path)` is a single-step create; creating
an existing directory fails with `RemoteIOError`; a protocol failure of
the round trip surfaces untouched. -/
def Fe.md (f : Fe) (path : String) : Except FErr Fe :=
  match f.protocolFailure with
  | some m => .error (.pyboardError m)
  | none =>
    if (f.fs.dirs.lookup path).isSome then
      .error (.remoteIOError ("Directory already exists: " ++ path))
    else .ok { f with fs := { f.fs with dirs := (path, []) :: f.fs.dirs } }

/-- Modelled from the spec: `rm(path)` deletes a file or an empty
directory; a non-empty directory or a missing path fails with
`RemoteIOError`; a protocol failure surfaces untouched. -/
def Fe.rm (f : Fe) (path : String) : Except FErr Fe :=
  match f.protocolFailure with
  | some m => .error (.pyboardError m)
  | none =>
    if (f.fs.files.lookup path).isSome then
      .ok { f with fs := { f.fs with files := f.fs.files.filter (·.1 ≠ path) } }
    else
      match f.fs.dirs.lookup path with
      | some [] => .ok { f with fs := { f.fs with dirs := f.fs.dirs.filter (·.1 ≠ path) } }
      | some (_ :: _) => .error (.remoteIOError ("Directory not empty: " ++ path))
      | none => .error (.remoteIOError ("No such file: " ++ path))

/-- Modelled from the spec: `rmr(path)` removes a directory tree; a
missing directory fails with `RemoteIOError`; a protocol failure
surfaces untouched. -/
def Fe.rmr (f : Fe) (path : String) : Except FErr Fe :=
  match f.protocolFailure with
  | some m => .error (.pyboardError m)
  | none =>
    if (f.fs.dirs.lookup path).isSome then
      .ok { f with fs := { f.fs with dirs := f.fs.dirs.filter (·.1 ≠ path) } }
    else .error (.remoteIOError ("No such directory: " ++ path))

/-- Modelled from the spec: `put(local, remote?)` uploads a host file; a
missing host file surfaces as a plain `IOError`; a protocol failure of
the chunked round trips surfaces untouched. -/
def Fe.put (f : Fe) (src : String) (dst : Option String) : Except FErr Fe :=
  match f.protocolFailure with
  | some m => .error (.pyboardError m)
  | none =>
    match f.localFiles.lookup src with
    | some content =>
        .ok { f with fs := { f.fs with files := (dst.getD src, content) :: f.fs.files } }
    | none => .error (.ioError ("No such local file: " ++ src))

/-- Modelled from the spec: `putr` recurses over a host directory; a
protocol failure surfaces untouched. -/
def Fe.putr (f : Fe) (src : String) (dst : Option String) : Except FErr Fe :=
  match f.protocolFailure with
  | some m => .error (.pyboardError m)
  | none =>
    if src ∈ f.localDirs then .ok f
    else .error (.ioError ("No such local directory: " ++ src))

/-- Modelled from the spec: `get(remote, local?)` downloads a remote
file; a missing remote file fails with `RemoteIOError`; a protocol
failure surfaces untouched. -/
def Fe.get (f : Fe) (src : String) (dst : Option String) : Except FErr Fe :=
  match f.protocolFailure with
  | some m => .error (.pyboardError m)
  | none =>
    match f.fs.files.lookup src with
    | some content => .ok { f with localFiles := (dst.getD src, content) :: f.localFiles }
    | none => .error (.remoteIOError ("No such file: " ++ src))

/-- Modelled from the spec: `getr` recurses over a remote subtree; a
protocol failure surfaces untouched. -/
def Fe.getr (f : Fe) (src : String) (dst : Option String) : Except FErr Fe :=
  match f.protocolFailure with
  | some m => .error (.pyboardError m)
  | none =>
    if (f.fs.dirs.lookup src).isSome then .ok f
    else .error (.remoteIOError ("No such directory: " ++ src))

/-- Modelled from the spec: `mput` applies `put` to every host file
matching a pattern; an empty match set is not an error and per-entry
`RemoteIOError`s are continued past, so absent a protocol failure the
call succeeds. -/
def Fe.mput (f : Fe) (pat : String) : Except FErr Fe :=
  match f.protocolFailure with
  | some m => .error (.pyboardError m)
  | none => .ok f

/-- Modelled from the spec: `mget` applies `get` to every entry of the
current remote directory matching a pattern; listing a missing current
directory fails with `RemoteIOError`, an empty match set is not an
error, and a protocol failure surfaces untouched. -/
def Fe.mget (f : Fe) (pat : String) : Except FErr Fe :=
  match f.protocolFailure with
  | some m => .error (.pyboardError m)
  | none =>
    if (f.fs.dirs.lookup f.cwd).isSome then .ok f
    else .error (.remoteIOError ("No such directory: " ++ f.cwd))

/-- Modelled from the spec: `mrm` applies `rm` to every entry of the
current remote directory matching a pattern; see `Fe.mget`. -/
def Fe.mrm (f : Fe) (pat : String) : Except FErr Fe :=
  match f.protocolFailure with
  | some m => .error (.pyboardError m)
  | none =>
    if (f.fs.dirs.lookup f.cwd).isSome then .ok f
    else .error (.remoteIOError ("No such directory: " ++ f.cwd))

/-- Modelled from the spec: `gets(path)` returns the decoded content of a
remote file; a missing file fails with `RemoteIOError`; a protocol
failure surfaces untouched. -/
def Fe.gets (f : Fe) (path : String) : Except FErr String :=
  match f.protocolFailure with
  | some m => .error (.pyboardError m)
  | none =>
    match f.fs.files.lookup path with
    | some content => .ok content
    | none => .error (.remoteIOError ("No such file: " ++ path))

/-- Modelled from the spec: `mpy_cross` invokes an external compiler on a
host file; failures surface as `IOError`, not `RemoteIOError`. -/
def Fe.mpyCross (f : Fe) (path : String) : Except FErr Fe :=
  if (f.localFiles.lookup path).isSome then .ok f
  else .error (.ioError ("No such local file: " ++ path))

/-- Modelled from the spec: `close()` restores the device to interactive
mode and is always safe to call. -/
def Fe.close (f : Fe) : Except FErr Unit := .ok ()

/-- Modelled from the spec: `_fqn(name)` resolves an entry name of the
current directory to an absolute path. -/
def Fe.fqn (f : Fe) (name : String) : String :=
  if f.cwd = "/" then "/" ++ name else f.cwd ++ "/" ++ name

/-- One delegated File-Explorer (remote) call, as traced by a handler. -/
inductive FeCall where
  | cd (p : String)
  | ls
  | md (p : String)
  | rm (p : String)
  | rmr (p : String)
  | put (src : String) (dst : Option String)
  | putr (src : String) (dst : Option String)
  | mput (pat : String)
  | get (src : String) (dst : Option String)
  | getr (src : String) (dst : Option String)
  | mget (pat : String)
  | mrm (pat : String)
  | gets (p : String)
  | mpyCross (p : String)
  | execRaw (code : String)
  | close
  | teardown
  | setup
  | replStart
deriving DecidableEq

/-- One observable event of a command handler: an error message shown via
`__error`, raw error data shown via `__error(ret[-1])`, an ordinary
`print`, streamed execution output, or a delegated File-Explorer call. -/
inductive Out where
  | errorMsg (m : String)
  | errorData (d : List Nat)
  | printMsg (m : String)
  | streamData (d : List Nat)
  | feCall (c : FeCall)
deriving DecidableEq

/-- The delegated File-Explorer calls among a handler's events. -/
def feCallsOf (out : List Out) : List FeCall :=
  out.filterMap fun o => match o with | .feCall c => some c | _ => none

/-- The state of the `MpFileShell` front end: the optional session and
the prompt string. -/
structure Shell where
  fe : Option Fe
  prompt : String
deriving DecidableEq

/-- Result of running one command handler: new shell state, events in
order, and an exception escaping the handler (aborting the shell) if
any. -/
structure CmdRes where
  st : Shell
  out : List Out
  escaped : Option FErr := none
deriving DecidableEq

/-- The message printed by `__is_open` when no session exists. -/
def notConnected : String := "Not connected to device. Use 'open' first."

/-- `__set_prompt_path` (plain, non-color branch). -/
def promptFor (pwd : String) : String := "mpfs [" ++ pwd ++ "]> "

/-- `__set_prompt_path` applied to the shell state. -/
def setPromptPath (st : Shell) : Shell :=
  { st with prompt := promptFor (match st.fe with | some f => f.pwd | none => "/") }

/-- A tokenizer: the external `Tokenizer.tokenize`, returning the token
values and the unparseable remainder. -/
def Tok : Type := String → List String × String

/-- `__parse_file_names`: tokenize, and on a non-empty remainder display
an error and yield `none`. -/
def parseFileNames (tok : Tok) (args : String) : Option (List String) × List Out :=
  let (tokens, rest) := tok args
  if rest ≠ "" then (none, [.errorMsg ("Invalid filename given: " ++ rest)])
  else (some tokens, [])

/-- Python's `str.startswith`, on the character lists of the strings. -/
def pyStartsWith (s pre : String) : Bool := pre.toList.isPrefixOf s.toList

/-- The target-normalization step of `do_open`: an argument not starting
with `ser:/dev/`, `ser:COM`, `tn:` or `ws:` gets a platform-dependent
serial prefix prepended. -/
def normalizeTarget (isWindows : Bool) (args : String) : String :=
  if ¬ pyStartsWith args "ser:/dev/" ∧ ¬ pyStartsWith args "ser:COM"
      ∧ ¬ pyStartsWith args "tn:" ∧ ¬ pyStartsWith args "ws:" then
    (if isWindows then "ser:" ++ args else "ser:/dev/" ++ args)
  else args

/-- `do_open` up to the `__connect` boundary: the value returned is the
target string handed to `__connect` (`none` when the handler errored out
before connecting). -/
def do_open (isWindows : Bool) (args : String) : Option String × List Out :=
  if args = "" then (none, [.errorMsg "Missing argument: <TARGET>"])
  else (some (normalizeTarget isWindows args), [])

/-- `__disconnect`: a no-op without a session; otherwise closes the
session, clears it and resets the prompt, catching `RemoteIOError` (in
which case the session reference is not cleared). -/
def disconnect (st : Shell) : CmdRes :=
  match st.fe with
  | none => ⟨st, [], none⟩
  | some f =>
    match f.close with
    | .ok _ => ⟨setPromptPath { st with fe := none }, [.feCall .close], none⟩
    | .error e =>
      match e with
      | .remoteIOError m => ⟨st, [.feCall .close, .errorMsg m], none⟩
      | e => ⟨st, [.feCall .close], some e⟩

/-- `do_close`. -/
def do_close (st : Shell) (args : String) : CmdRes := disconnect st

/-- `do_exit`: disconnects and returns `True` to stop the command loop. -/
def do_exit (st : Shell) (args : String) : CmdRes × Bool := (disconnect st, true)

/-- `do_pwd`. -/
def do_pwd (st : Shell) (args : String) : CmdRes :=
  match st.fe with
  | none => ⟨st, [.errorMsg notConnected], none⟩
  | some f => ⟨st, [.printMsg f.pwd], none⟩

/-- `do_cd`. -/
def do_cd (tok : Tok) (st : Shell) (args : String) : CmdRes :=
  if args = "" then ⟨st, [.errorMsg "Missing argument: <REMOTE DIR>"], none⟩
  else
    match st.fe with
    | none => ⟨st, [.errorMsg notConnected], none⟩
    | some f =>
      match parseFileNames tok args with
      | (none, out) => ⟨st, out, none⟩
      | (some sargs, out) =>
        match sargs with
        | [] => ⟨st, out, none⟩
        | _ :: _ :: _ =>
          ⟨st, out ++ [.errorMsg "Only one argument allowed: <REMOTE DIR>"], none⟩
        | [p] =>
          match f.cd p with
          | .ok f1 => ⟨setPromptPath { st with fe := some f1 }, out ++ [.feCall (.cd p)], none⟩
          | .error e =>
            if e.isIOError then ⟨st, out ++ [.feCall (.cd p), .errorMsg e.msg], none⟩
            else ⟨st, out ++ [.feCall (.cd p)], some e⟩

/-- `do_md`. -/
def do_md (tok : Tok) (st : Shell) (args : String) : CmdRes :=
  if args = "" then ⟨st, [.errorMsg "Missing argument: <REMOTE DIR>"], none⟩
  else
    match st.fe with
    | none => ⟨st, [.errorMsg notConnected], none⟩
    | some f =>
      match parseFileNames tok args with
      | (none, out) => ⟨st, out, none⟩
      | (some sargs, out) =>
        match sargs with
        | [] => ⟨st, out, none⟩
        | _ :: _ :: _ =>
          ⟨st, out ++ [.errorMsg "Only one argument allowed: <REMOTE DIR>"], none⟩
        | [p] =>
          match f.md p with
          | .ok f1 => ⟨{ st with fe := some f1 }, out ++ [.feCall (.md p)], none⟩
          | .error e =>
            if e.isIOError then ⟨st, out ++ [.feCall (.md p), .errorMsg e.msg], none⟩
            else ⟨st, out ++ [.feCall (.md p)], some e⟩

/-- `do_rm` (additionally catches `PyboardError`). -/
def do_rm (tok : Tok) (st : Shell) (args : String) : CmdRes :=
  if args = "" then ⟨st, [.errorMsg "Missing argument: <REMOTE FILE>"], none⟩
  else
    match st.fe with
    | none => ⟨st, [.errorMsg notConnected], none⟩
    | some f =>
      match parseFileNames tok args with
      | (none, out) => ⟨st, out, none⟩
      | (some sargs, out) =>
        match sargs with
        | [] => ⟨st, out, none⟩
        | _ :: _ :: _ =>
          ⟨st, out ++ [.errorMsg "Only one argument allowed: <REMOTE FILE>"], none⟩
        | [p] =>
          match f.rm p with
          | .ok f1 => ⟨{ st with fe := some f1 }, out ++ [.feCall (.rm p)], none⟩
          | .error e =>
            if e.isIOError then ⟨st, out ++ [.feCall (.rm p), .errorMsg e.msg], none⟩
            else
              match e with
              | .pyboardError _ =>
                ⟨st, out ++ [.feCall (.rm p),
                  .errorMsg "Unable to send request to device"], none⟩
              | e => ⟨st, out ++ [.feCall (.rm p)], some e⟩

/-- `do_rmr` (additionally catches `PyboardError`). -/
def do_rmr (tok : Tok) (st : Shell) (args : String) : CmdRes :=
  if args = "" then ⟨st, [.errorMsg "Missing argument: <REMOTE DIRECTORY>"], none⟩
  else
    match st.fe with
    | none => ⟨st, [.errorMsg notConnected], none⟩
    | some f =>
      match parseFileNames tok args with
      | (none, out) => ⟨st, out, none⟩
      | (some sargs, out) =>
        match sargs with
        | [] => ⟨st, out, none⟩
        | _ :: _ :: _ =>
          ⟨st, out ++ [.errorMsg "Only one argument allowed: <REMOTE DIRECTORY>"], none⟩
        | [p] =>
          match f.rmr p with
          | .ok f1 => ⟨{ st with fe := some f1 }, out ++ [.feCall (.rmr p)], none⟩
          | .error e =>
            if e.isIOError then ⟨st, out ++ [.feCall (.rmr p), .errorMsg e.msg], none⟩
            else
              match e with
              | .pyboardError _ =>
                ⟨st, out ++ [.feCall (.rmr p),
                  .errorMsg "Unable to send request to device"], none⟩
              | e => ⟨st, out ++ [.feCall (.rmr p)], some e⟩

/-- `do_cat`: prints the content returned by `gets`. -/
def do_cat (tok : Tok) (st : Shell) (args : String) : CmdRes :=
  if args = "" then ⟨st, [.errorMsg "Missing argument: <REMOTE FILE>"], none⟩
  else
    match st.fe with
    | none => ⟨st, [.errorMsg notConnected], none⟩
    | some f =>
      match parseFileNames tok args with
      | (none, out) => ⟨st, out, none⟩
      | (some sargs, out) =>
        match sargs with
        | [] => ⟨st, out, none⟩
        | _ :: _ :: _ =>
          ⟨st, out ++ [.errorMsg "Only one argument allowed: <REMOTE FILE>"], none⟩
        | [p] =>
          match f.gets p with
          | .ok content => ⟨st, out ++ [.feCall (.gets p), .printMsg content], none⟩
          | .error e =>
            if e.isIOError then ⟨st, out ++ [.feCall (.gets p), .errorMsg e.msg], none⟩
            else ⟨st, out ++ [.feCall (.gets p)], some e⟩

/-- `do_mpyc`: note there is no `__is_open` check in the source; with no
session the `self.fe.mpy_cross` dereference raises `AttributeError`,
which the `except IOError` clause does not catch. -/
def do_mpyc (tok : Tok) (st : Shell) (args : String) : CmdRes :=
  if args = "" then ⟨st, [.errorMsg "Missing argument: <LOCAL FILE>"], none⟩
  else
    match parseFileNames tok args with
    | (none, out) => ⟨st, out, none⟩
    | (some sargs, out) =>
      match sargs with
      | [] => ⟨st, out, none⟩
      | _ :: _ :: _ =>
        ⟨st, out ++ [.errorMsg "Only one argument allowed: <LOCAL FILE>"], none⟩
      | [p] =>
        match st.fe with
        | none => ⟨st, out, some .attributeError⟩
        | some f =>
          match f.mpyCross p with
          | .ok f1 => ⟨{ st with fe := some f1 }, out ++ [.feCall (.mpyCross p)], none⟩
          | .error e =>
            if e.isIOError then
              ⟨st, out ++ [.feCall (.mpyCross p), .errorMsg e.msg], none⟩
            else ⟨st, out ++ [.feCall (.mpyCross p)], some e⟩

/-- `do_put` (one or two path arguments). -/
def do_put (tok : Tok) (st : Shell) (args : String) : CmdRes :=
  if args = "" then
    ⟨st, [.errorMsg "Missing arguments: <LOCAL FILE> [<REMOTE FILE>]"], none⟩
  else
    match st.fe with
    | none => ⟨st, [.errorMsg notConnected], none⟩
    | some f =>
      match parseFileNames tok args with
      | (none, out) => ⟨st, out, none⟩
      | (some sargs, out) =>
        match sargs with
        | [] => ⟨st, out, none⟩
        | _ :: _ :: _ :: _ =>
          ⟨st, out ++
            [.errorMsg "Only one ore two arguments allowed: <LOCAL FILE> [<REMOTE FILE>]"],
            none⟩
        | [a] =>
          match f.put a none with
          | .ok f1 => ⟨{ st with fe := some f1 }, out ++ [.feCall (.put a none)], none⟩
          | .error e =>
            if e.isIOError then
              ⟨st, out ++ [.feCall (.put a none), .errorMsg e.msg], none⟩
            else ⟨st, out ++ [.feCall (.put a none)], some e⟩
        | [a, b] =>
          match f.put a (some b) with
          | .ok f1 =>
            ⟨{ st with fe := some f1 }, out ++ [.feCall (.put a (some b))], none⟩
          | .error e =>
            if e.isIOError then
              ⟨st, out ++ [.feCall (.put a (some b)), .errorMsg e.msg], none⟩
            else ⟨st, out ++ [.feCall (.put a (some b))], some e⟩

/-- `do_putr`. -/
def do_putr (tok : Tok) (st : Shell) (args : String) : CmdRes :=
  if args = "" then
    ⟨st, [.errorMsg "Missing arguments: <LOCAL DIRECTORY> [<REMOTE DIRECTORY>]"], none⟩
  else
    match st.fe with
    | none => ⟨st, [.errorMsg notConnected], none⟩
    | some f =>
      match parseFileNames tok args with
      | (none, out) => ⟨st, out, none⟩
      | (some sargs, out) =>
        match sargs with
        | [] => ⟨st, out, none⟩
        | _ :: _ :: _ :: _ =>
          ⟨st, out ++
            [.errorMsg
              "Only one ore two arguments allowed: <LOCAL DIRECTORY> [<REMOTE DIRECTORY>]"],
            none⟩
        | [a] =>
          match f.putr a none with
          | .ok f1 => ⟨{ st with fe := some f1 }, out ++ [.feCall (.putr a none)], none⟩
          | .error e =>
            if e.isIOError then
              ⟨st, out ++ [.feCall (.putr a none), .errorMsg e.msg], none⟩
            else ⟨st, out ++ [.feCall (.putr a none)], some e⟩
        | [a, b] =>
          match f.putr a (some b) with
          | .ok f1 =>
            ⟨{ st with fe := some f1 }, out ++ [.feCall (.putr a (some b))], none⟩
          | .error e =>
            if e.isIOError then
              ⟨st, out ++ [.feCall (.putr a (some b)), .errorMsg e.msg], none⟩
            else ⟨st, out ++ [.feCall (.putr a (some b))], some e⟩

/-- `do_get`. -/
def do_get (tok : Tok) (st : Shell) (args : String) : CmdRes :=
  if args = "" then
    ⟨st, [.errorMsg "Missing arguments: <REMOTE FILE> [<LOCAL FILE>]"], none⟩
  else
    match st.fe with
    | none => ⟨st, [.errorMsg notConnected], none⟩
    | some f =>
      match parseFileNames tok args with
      | (none, out) => ⟨st, out, none⟩
      | (some sargs, out) =>
        match sargs with
        | [] => ⟨st, out, none⟩
        | _ :: _ :: _ :: _ =>
          ⟨st, out ++
            [.errorMsg "Only one ore two arguments allowed: <REMOTE FILE> [<LOCAL FILE>]"],
            none⟩
        | [a] =>
          match f.get a none with
          | .ok f1 => ⟨{ st with fe := some f1 }, out ++ [.feCall (.get a none)], none⟩
          | .error e =>
            if e.isIOError then
              ⟨st, out ++ [.feCall (.get a none), .errorMsg e.msg], none⟩
            else ⟨st, out ++ [.feCall (.get a none)], some e⟩
        | [a, b] =>
          match f.get a (some b) with
          | .ok f1 =>
            ⟨{ st with fe := some f1 }, out ++ [.feCall (.get a (some b))], none⟩
          | .error e =>
            if e.isIOError then
              ⟨st, out ++ [.feCall (.get a (some b)), .errorMsg e.msg], none⟩
            else ⟨st, out ++ [.feCall (.get a (some b))], some e⟩

/-- `do_getr`. -/
def do_getr (tok : Tok) (st : Shell) (args : String) : CmdRes :=
  if args = "" then
    ⟨st, [.errorMsg "Missing arguments: <REMOTE DIRECTORY> [<LOCAL DIRECTORY>]"], none⟩
  else
    match st.fe with
    | none => ⟨st, [.errorMsg notConnected], none⟩
    | some f =>
      match parseFileNames tok args with
      | (none, out) => ⟨st, out, none⟩
      | (some sargs, out) =>
        match sargs with
        | [] => ⟨st, out, none⟩
        | _ :: _ :: _ :: _ =>
          ⟨st, out ++
            [.errorMsg
              "Only one ore two arguments allowed: <REMOTE DIRECTORY> [<LOCAL DIRECTORY>]"],
            none⟩
        | [a] =>
          match f.getr a none with
          | .ok f1 => ⟨{ st with fe := some f1 }, out ++ [.feCall (.getr a none)], none⟩
          | .error e =>
            if e.isIOError then
              ⟨st, out ++ [.feCall (.getr a none), .errorMsg e.msg], none⟩
            else ⟨st, out ++ [.feCall (.getr a none)], some e⟩
        | [a, b] =>
          match f.getr a (some b) with
          | .ok f1 =>
            ⟨{ st with fe := some f1 }, out ++ [.feCall (.getr a (some b))], none⟩
          | .error e =>
            if e.isIOError then
              ⟨st, out ++ [.feCall (.getr a (some b)), .errorMsg e.msg], none⟩
            else ⟨st, out ++ [.feCall (.getr a (some b))], some e⟩

/-- `do_mput`: the raw argument is the selection pattern (no tokenizing). -/
def do_mput (st : Shell) (args : String) : CmdRes :=
  if args = "" then ⟨st, [.errorMsg "Missing argument: <SELECTION REGEX>"], none⟩
  else
    match st.fe with
    | none => ⟨st, [.errorMsg notConnected], none⟩
    | some f =>
      match f.mput args with
      | .ok f1 => ⟨{ st with fe := some f1 }, [.feCall (.mput args)], none⟩
      | .error e =>
        if e.isIOError then ⟨st, [.feCall (.mput args), .errorMsg e.msg], none⟩
        else ⟨st, [.feCall (.mput args)], some e⟩

/-- `do_mget`. -/
def do_mget (st : Shell) (args : String) : CmdRes :=
  if args = "" then ⟨st, [.errorMsg "Missing argument: <SELECTION REGEX>"], none⟩
  else
    match st.fe with
    | none => ⟨st, [.errorMsg notConnected], none⟩
    | some f =>
      match f.mget args with
      | .ok f1 => ⟨{ st with fe := some f1 }, [.feCall (.mget args)], none⟩
      | .error e =>
        if e.isIOError then ⟨st, [.feCall (.mget args), .errorMsg e.msg], none⟩
        else ⟨st, [.feCall (.mget args)], some e⟩

/-- `do_mrm`. -/
def do_mrm (st : Shell) (args : String) : CmdRes :=
  if args = "" then ⟨st, [.errorMsg "Missing argument: <SELECTION REGEX>"], none⟩
  else
    match st.fe with
    | none => ⟨st, [.errorMsg notConnected], none⟩
    | some f =>
      match f.mrm args with
      | .ok f1 => ⟨{ st with fe := some f1 }, [.feCall (.mrm args)], none⟩
      | .error e =>
        if e.isIOError then ⟨st, [.feCall (.mrm args), .errorMsg e.msg], none⟩
        else ⟨st, [.feCall (.mrm args)], some e⟩

/-- `do_exec`: `res` is the outcome of
`exec_raw_no_follow` plus `follow` — on success the streamed
`(stdout, stderr)` byte pair.  A remote failure is reported via
`__error(ret[-1])` exactly when the final component is non-empty; both
`IOError` and `PyboardError` are caught. -/
def do_exec (st : Shell) (args : String)
    (res : Except FErr (List Nat × List Nat)) : CmdRes :=
  if args = "" then ⟨st, [.errorMsg "Missing argument: <STATEMENT>"], none⟩
  else
    match st.fe with
    | none => ⟨st, [.errorMsg notConnected], none⟩
    | some f =>
      match res with
      | .ok (o, e) =>
        if e.length ≠ 0 then
          ⟨st, [.feCall (.execRaw args), .streamData o, .streamData e, .errorData e], none⟩
        else ⟨st, [.feCall (.execRaw args), .streamData o, .streamData e], none⟩
      | .error err =>
        match err with
        | .attributeError => ⟨st, [.feCall (.execRaw args)], some err⟩
        | err => ⟨st, [.feCall (.execRaw args), .errorMsg err.msg], none⟩

/-- `do_repl`: the PySerial version check precedes everything; the Term
interaction itself is external and abstracted to its `teardown` /
`start` / `setup` calls. -/
def do_repl (serialVersionOk : Bool) (st : Shell) (args : String) : CmdRes :=
  if ¬ serialVersionOk then
    ⟨st, [.errorMsg "REPL needs PySerial version >= 2.7"], none⟩
  else
    match st.fe with
    | none => ⟨st, [.errorMsg notConnected], none⟩
    | some f =>
      ⟨st, [.feCall .teardown, .feCall .replStart, .feCall .setup], none⟩

/-- The key comparison of Python's inner `sorted(files, key=lambda file: file[0])`. -/
def nameLE (a b : String × Char) : Bool := decide (a.1 ≤ b.1)

/-- The key comparison of Python's outer `sorted(..., key=lambda file: file[1])`. -/
def kindLE (a b : String × Char) : Bool := decide (a.2 ≤ b.2)

/-- The double stable sort of `do_ls`/`rec_tree`:
`sorted(sorted(files, key=name), key=kind)`.  Python's `sorted` is a
stable sort, modelled by `List.mergeSort`. -/
def sortEntries (l : List (String × Char)) : List (String × Char) :=
  (l.mergeSort nameLE).mergeSort kindLE

/-- The listing `do_ls` displays: the raw `ls` result, with a `("..",'D')`
entry prepended when the current directory is not the root, then sorted. -/
def displayList (pwd : String) (files : List (String × Char)) : List (String × Char) :=
  sortEntries (if pwd ≠ "/" then ("..", 'D') :: files else files)

/-- One displayed line of `do_ls` (plain, non-color branch). -/
def renderEntry (e : String × Char) : String :=
  if e.2 = 'F' then "       " ++ e.1 else " <dir> " ++ e.1

/-- The body of `do_ls`'s `try` block after any initial `cd`: list the
current directory and print the (extended, sorted) listing; an `IOError`
is caught and displayed. -/
def lsBody (f : Fe) : List Out :=
  match f.ls with
  | .error e => [.feCall .ls, .errorMsg e.msg]
  | .ok files =>
    [.feCall .ls, .printMsg ("\nRemote files in '" ++ f.pwd ++ "':\n")]
      ++ (displayList f.pwd files).map (fun e => .printMsg (renderEntry e))
      ++ [.printMsg ""]

/-- `do_ls`: remembers `olddir = pwd()`, optionally `cd`s into the given
directory inside a `try` that catches `IOError`, lists, and afterwards —
outside the `try` — `cd`s back to `olddir`, so a failure of that final
restoring `cd` escapes the handler. -/
def do_ls (st : Shell) (dir : String) : CmdRes :=
  match st.fe with
  | none => ⟨st, [.errorMsg notConnected], none⟩
  | some f =>
    let olddir := f.pwd
    if dir = "" then ⟨st, lsBody f, none⟩
    else
      match f.cd dir with
      | .error e =>
        if e.isIOError then
          match f.cd olddir with
          | .ok f2 =>
            ⟨{ st with fe := some f2 },
              [.feCall (.cd dir), .errorMsg e.msg, .feCall (.cd olddir)], none⟩
          | .error e2 =>
            ⟨st, [.feCall (.cd dir), .errorMsg e.msg, .feCall (.cd olddir)], some e2⟩
        else ⟨st, [.feCall (.cd dir)], some e⟩
      | .ok f1 =>
        match f1.cd olddir with
        | .ok f2 =>
          ⟨{ st with fe := some f2 },
            .feCall (.cd dir) :: lsBody f1 ++ [.feCall (.cd olddir)], none⟩
        | .error e2 =>
          ⟨{ st with fe := some f1 },
            .feCall (.cd dir) :: lsBody f1 ++ [.feCall (.cd olddir)], some e2⟩

/-- `pwd().split("/")[-1]`. -/
def lastComponent (s : String) : String := (s.splitOn "/").getLastD ""

/-- `rec_tree`: the recursive listing of `do_tree`.  Its whole body —
including the final restoring `cd` — sits inside a `try` that catches
`IOError`, which covers every error the modelled File Explorer raises,
so `rec_tree` never lets an error escape.  Recursion is bounded by a fuel
argument; every property proved about it holds for all fuel values. -/
def recTree : Nat → Fe → String → List Char → Fe × List Out
  | 0, f, _, _ => (f, [])
  | fuel+1, f, dir, pref =>
    let olddir := f.pwd
    match f.cd dir with
    | .error e => (f, [.feCall (.cd dir), .errorMsg e.msg])
    | .ok f1 =>
      match f1.ls with
      | .error e => (f1, [.feCall (.cd dir), .feCall .ls, .errorMsg e.msg])
      | .ok files =>
        let out0 : List Out := [.feCall (.cd dir), .feCall .ls,
          .printMsg (String.mk pref ++ lastComponent f1.pwd)]
        let pref := if pref.length ≥ 4 ∧ pref.getD (pref.length - 4) ' ' = '└' then
            pref.take (pref.length - 4) ++ [' ', ' ', ' ', ' ']
          else pref
        let files := sortEntries files
        let n := files.length
        let step := fun (acc : Fe × List Out × Nat) (entry : String × Char) =>
          let (fc, outs, i) := acc
          if entry.2 = 'F' then
            let fpre := if pref.length ≥ 3 then
                pref.take (pref.length - 4)
                  ++ [(if pref.getD (pref.length - 4) ' ' = ' ' then ' ' else '│'),
                      ' ', ' ', ' ']
              else pref
            let fpre := fpre ++ (if n = i + 1 then "└── ".toList else "├── ".toList)
            (fc, outs ++ [Out.printMsg (String.mk fpre ++ entry.1)], i + 1)
          else
            let r := recTree fuel fc (fc.fqn entry.1)
              (pref ++ (if n = i + 1 then "└── ".toList else "├── ".toList))
            (r.1, outs ++ r.2, i + 1)
        let res := files.foldl step (f1, out0, 0)
        match res.1.cd olddir with
        | .ok f3 => (f3, res.2.1 ++ [.feCall (.cd olddir)])
        | .error e => (res.1, res.2.1 ++ [.feCall (.cd olddir), .errorMsg e.msg])

/-- `do_tree`: unlike every other filesystem handler, the initial
`self.fe.cd(directory)` and the final restoring `cd(olddir)` are outside
any `try`, so their errors escape the handler. -/
def do_tree (st : Shell) (dir : String) : CmdRes :=
  match st.fe with
  | none => ⟨st, [.errorMsg notConnected], none⟩
  | some f =>
    let olddir := f.pwd
    if dir = "" then
      let dir := f.pwd
      let r := recTree (f.fs.dirs.length + 1) f dir []
      if dir ≠ "" then
        match r.1.cd olddir with
        | .ok f3 => ⟨{ st with fe := some f3 }, r.2 ++ [.feCall (.cd olddir)], none⟩
        | .error e => ⟨{ st with fe := some r.1 }, r.2 ++ [.feCall (.cd olddir)], some e⟩
      else ⟨{ st with fe := some r.1 }, r.2, none⟩
    else
      match f.cd dir with
      | .error e => ⟨st, [.feCall (.cd dir)], some e⟩
      | .ok f1 =>
        let r := recTree (f1.fs.dirs.length + 1) f1 dir []
        match r.1.cd olddir with
        | .ok f3 =>
          ⟨{ st with fe := some f3 },
            .feCall (.cd dir) :: r.2 ++ [.feCall (.cd olddir)], none⟩
        | .error e =>
          ⟨{ st with fe := some r.1 },
            .feCall (.cd dir) :: r.2 ++ [.feCall (.cd olddir)], some e⟩

/-- Modelled from the spec: `put` moves file content in bounded ordered
chunks (`mp/mpfexp.py` is not among the given sources).  `chunksOf c l`
is the ordered chunk sequence for content `l` and configured chunk size
`c`. -/
def chunksOf (c : Nat) (l : List Nat) : List (List Nat) :=
  if h : c = 0 ∨ l = [] then [] else l.take c :: chunksOf c (l.drop c)
termination_by l.length
decreasing_by
  simp only [not_or] at h
  have hl := List.length_pos.mpr h.2
  simp only [List.length_drop]
  omega

/-- Modelled from the spec: each chunk's bytes are encoded into a form
safe to embed as literal source text; here each byte becomes its two
hexadecimal digits. -/
def encodeChunk (chunk : List Nat) : List Nat := chunk.flatMap fun b => [b / 16, b % 16]

/-- Modelled from the spec: the device-side decoding of one encoded
chunk. -/
def decodeChunk : List Nat → List Nat
  | hi :: lo :: rest => (hi * 16 + lo) :: decodeChunk rest
  | _ => []

/-- Modelled from the spec: `put(f, remote)` writes one encoded chunk per
round trip; the device decodes and appends the chunks in order, so the
remote file ends up holding their concatenation. -/
def putRemote (c : Nat) (f : List Nat) : List Nat :=
  (((chunksOf c f).map encodeChunk).map decodeChunk).flatten

/-- Modelled from the spec: `get(remote, local)` reads the remote content
chunk by chunk (a short or empty chunk signalling EOF), decodes each and
appends it to the local file. -/
def getLocal (c : Nat) (content : List Nat) : List Nat :=
  (((chunksOf c content).map encodeChunk).map decodeChunk).flatten

/-- Claim C1: for every path argument given to the cd command, the
locally tracked current remote directory and the prompt path derived from
it are updated only when the remote cd operation succeeds; if the remote
cd fails with `RemoteIOError` the error is reported and the tracked
directory and prompt remain exactly what they were before the call. -/
theorem cd_updates_only_on_success (tok : Tok) (st : Shell) (args p : String) (f : Fe)
    (hfe : st.fe = some f) (hargs : args ≠ "") (htok : tok args = ([p], "")) :
    (∀ e, f.cd p = .error e →
      (do_cd tok st args).st = st ∧ Out.errorMsg e.msg ∈ (do_cd tok st args).out) ∧
    (∀ f1, f.cd p = .ok f1 →
      (do_cd tok st args).st.fe = some f1 ∧
      (do_cd tok st args).st.prompt = promptFor f1.cwd) := by
  have hdc : do_cd tok st args = (match f.cd p with
      | .ok f1 => ⟨setPromptPath { st with fe := some f1 }, [.feCall (.cd p)], none⟩
      | .error e =>
        if e.isIOError then ⟨st, [.feCall (.cd p), .errorMsg e.msg], none⟩
        else ⟨st, [.feCall (.cd p)], some e⟩) := by
    simp [do_cd, hfe, hargs, parseFileNames, htok]
  constructor
  · intro e he
    have hio : e.isIOError = true := by
      unfold Fe.cd at he
      split at he
      · simp at he
      · injection he with h2
        rw [← h2]
        rfl
    rw [hdc, he]
    simp [hio]
  · intro f1 h1
    rw [hdc, h1]
    simp [setPromptPath, promptFor, Fe.pwd]

/-- Claim C1 witness: a concrete failing `cd` leaves the shell state
untouched and reports the error. -/
theorem cd_updates_only_on_success_witness :
    (do_cd (fun _ => (["/x"], "")) ⟨some ⟨⟨[("/", [])], []⟩, "/", [], [], none⟩, "mpfs [/]> "⟩
        "/x").st = ⟨some ⟨⟨[("/", [])], []⟩, "/", [], [], none⟩, "mpfs [/]> "⟩ :=
  ((cd_updates_only_on_success (fun _ => (["/x"], ""))
      ⟨some ⟨⟨[("/", [])], []⟩, "/", [], [], none⟩, "mpfs [/]> "⟩ "/x" "/x"
      ⟨⟨[("/", [])], []⟩, "/", [], [], none⟩ rfl (by decide) rfl).1
    (.remoteIOError ("No such directory: /x")) rfl).1

/-- Claim C2 counterexample: the input `ser:ttyUSB0` already carries the
serial connection scheme, yet `do_open` (on a non-Windows platform) does
not pass it to the connect step unchanged: it prepends `ser:/dev/`. -/
theorem open_scheme_counterexample :
    do_open false "ser:ttyUSB0" = (some "ser:/dev/ser:ttyUSB0", []) ∧
    "ser:/dev/ser:ttyUSB0" ≠ "ser:ttyUSB0" := by
  constructor
  · decide
  · decide

/-- Claim C2 amended: a non-empty target is passed to the connect step
unchanged exactly when it starts with `ser:/dev/`, `ser:COM`, `tn:` or
`ws:`; any other input — even one carrying a `ser:` scheme in another
form — gets `ser:` (Windows) or `ser:/dev/` (other platforms)
prepended. -/
theorem open_normalization (isWindows : Bool) (args : String) (h : args ≠ "") :
    (pyStartsWith args "ser:/dev/" ∨ pyStartsWith args "ser:COM" ∨
        pyStartsWith args "tn:" ∨ pyStartsWith args "ws:" →
      do_open isWindows args = (some args, [])) ∧
    (¬ pyStartsWith args "ser:/dev/" → ¬ pyStartsWith args "ser:COM" →
        ¬ pyStartsWith args "tn:" → ¬ pyStartsWith args "ws:" →
      do_open isWindows args =
        (some ((if isWindows then "ser:" else "ser:/dev/") ++ args), [])) := by
  constructor
  · intro hs
    have hne : ¬ (¬ pyStartsWith args "ser:/dev/" = true
        ∧ ¬ pyStartsWith args "ser:COM" = true
        ∧ ¬ pyStartsWith args "tn:" = true ∧ ¬ pyStartsWith args "ws:" = true) := by
      rcases hs with h1 | h1 | h1 | h1 <;> simp [h1]
    unfold do_open normalizeTarget
    rw [if_neg h, if_neg hne]
  · intro h1 h2 h3 h4
    unfold do_open normalizeTarget
    rw [if_neg h, if_pos ⟨h1, h2, h3, h4⟩]
    cases isWindows <;> rfl

/-- Claim C2 amended witness: a `tn:` target passes through unchanged. -/
theorem open_normalization_witness :
    do_open false "tn:192.168.1.1" = (some "tn:192.168.1.1", []) :=
  (open_normalization false "tn:192.168.1.1" (by decide)).1
    (by right; right; left; decide)

/-- Claim C5: after the streamed execution result is returned, `do_exec`
reports a remote-side failure if and only if the final component of the
result (the stderr byte sequence) is non-empty. -/
theorem exec_reports_iff_stderr_nonempty (st : Shell) (args : String) (f : Fe)
    (o e : List Nat) (hfe : st.fe = some f) (hargs : args ≠ "") :
    ((∃ d, Out.errorData d ∈ (do_exec st args (.ok (o, e))).out) ↔ e ≠ []) := by
  rcases e with _ | ⟨b, e⟩ <;> simp [do_exec, hfe, hargs]

/-- Claim C5 witness: with a non-empty stderr the failure is reported. -/
theorem exec_reports_iff_stderr_nonempty_witness :
    (∃ d, Out.errorData d ∈
      (do_exec ⟨some ⟨⟨[("/", [])], []⟩, "/", [], [], none⟩, "mpfs [/]> "⟩ "1/0"
        (.ok ([], [90]))).out) :=
  (exec_reports_iff_stderr_nonempty ⟨some ⟨⟨[("/", [])], []⟩, "/", [], [], none⟩, "mpfs [/]> "⟩
    "1/0" ⟨⟨[("/", [])], []⟩, "/", [], [], none⟩ [] [90] rfl (by decide)).mpr (by decide)

/-- Claim C6: closing is safe and idempotent at the shell level: `close`
with no open session is a no-op without error, and after any disconnect
the session reference is cleared so a second `close` is again a no-op. -/
theorem close_idempotent (st : Shell) (args : String) :
    (st.fe = none → do_close st args = ⟨st, [], none⟩) ∧
    (do_close st args).st.fe = none ∧
    do_close (do_close st args).st args = ⟨(do_close st args).st, [], none⟩ := by
  rcases hfe : st.fe with _ | f <;>
    simp [do_close, disconnect, hfe, Fe.close, setPromptPath]

/-- Claim C6 witness: a concrete no-session `close` is a no-op. -/
theorem close_idempotent_witness :
    do_close ⟨none, "mpfs [/]> "⟩ "" = ⟨⟨none, "mpfs [/]> "⟩, [], none⟩ :=
  (close_idempotent ⟨none, "mpfs [/]> "⟩ "").1 rfl

/-- `decodeChunk` undoes the text-safe `encodeChunk` encoding. -/
theorem decodeChunk_encodeChunk : ∀ chunk, decodeChunk (encodeChunk chunk) = chunk
  | [] => rfl
  | b :: t => by
    have ih := decodeChunk_encodeChunk t
    have h1 : encodeChunk (b :: t) = b / 16 :: b % 16 :: encodeChunk t := rfl
    rw [h1]
    simp only [decodeChunk]
    rw [ih]
    congr 1
    omega

/-- Reassembling the ordered chunks of a file restores the file. -/
theorem flatten_chunksOf (c : Nat) (hc : 0 < c) (l : List Nat) :
    (chunksOf c l).flatten = l := by
  generalize hn : l.length = n
  induction n using Nat.strong_induction_on generalizing l with
  | _ n ih =>
    subst hn
    rw [chunksOf]
    split
    · rename_i hcase
      rcases hcase with hcase | hcase
      · omega
      · simp [hcase]
    · rename_i hcase
      simp only [not_or] at hcase
      have hlt : (l.drop c).length < l.length := by
        have hl := List.length_pos.mpr hcase.2
        simp only [List.length_drop]
        omega
      simp only [List.flatten_cons]
      rw [ih (l.drop c).length hlt (l.drop c) rfl]
      exact List.take_append_drop c l

/-- Claim C8: for every file content `f` and every configured chunk size
`c`, uploading `f` with `put` and downloading the resulting remote file
with `get` yields content byte-for-byte equal to `f`. -/
theorem put_get_roundtrip (c : Nat) (f : List Nat) (hc : 0 < c) :
    getLocal c (putRemote c f) = f := by
  have h1 : ∀ l, getLocal c l = l := by
    intro l
    unfold getLocal
    rw [List.map_map]
    have he : (decodeChunk ∘ encodeChunk) = id := funext decodeChunk_encodeChunk
    rw [he, List.map_id]
    exact flatten_chunksOf c hc l
  have h2 : putRemote c f = f := h1 f
  rw [h2]
  exact h1 f

/-- Claim C8 witness: a concrete three-byte file survives the
`put`-then-`get` round trip with chunk size 2. -/
theorem put_get_roundtrip_witness :
    getLocal 2 (putRemote 2 [10, 255, 3]) = [10, 255, 3] :=
  put_get_roundtrip 2 [10, 255, 3] (by decide)

/-- The outcome claim C3 requires of an invalid invocation: some error
message is displayed and no File-Explorer operation is invoked. -/
def invalidArgsRejected (r : CmdRes) : Prop :=
  (∃ m, Out.errorMsg m ∈ r.out) ∧ feCallsOf r.out = []

/-- Claim C3: for every single-path command (cd, md, rm, rmr, mpyc), an
empty argument string, a tokenization with non-empty unparseable
remainder, or more than one token each produce a displayed error message
and invoke no File-Explorer operation. -/
theorem singlepath_invalid_args (tok : Tok) (st : Shell) (args : String)
    (h : args = "" ∨ (tok args).2 ≠ "" ∨ 2 ≤ (tok args).1.length) :
    invalidArgsRejected (do_cd tok st args) ∧ invalidArgsRejected (do_md tok st args) ∧
    invalidArgsRejected (do_rm tok st args) ∧ invalidArgsRejected (do_rmr tok st args) ∧
    invalidArgsRejected (do_mpyc tok st args) := by
  by_cases hargs : args = ""
  · subst hargs
    refine ⟨?_, ?_, ?_, ?_, ?_⟩ <;>
      simp [invalidArgsRejected, do_cd, do_md, do_rm, do_rmr, do_mpyc, feCallsOf]
  · rcases htk : tok args with ⟨ts, rest⟩
    replace h : rest ≠ "" ∨ 2 ≤ ts.length := by
      rcases h with h | h | h
      · exact absurd h hargs
      · rw [htk] at h; exact Or.inl h
      · rw [htk] at h; exact Or.inr h
    by_cases hrest : rest = ""
    · have hts : 2 ≤ ts.length := by
        rcases h with h | h
        · exact absurd hrest h
        · exact h
      subst hrest
      rcases ts with _ | ⟨a, ts⟩
      · simp at hts
      rcases ts with _ | ⟨b, ts⟩
      · simp at hts
      rcases hfe : st.fe with _ | f <;>
        refine ⟨?_, ?_, ?_, ?_, ?_⟩ <;>
          simp [invalidArgsRejected, do_cd, do_md, do_rm, do_rmr, do_mpyc,
            parseFileNames, htk, hargs, hfe, feCallsOf]
    · rcases hfe : st.fe with _ | f <;>
        refine ⟨?_, ?_, ?_, ?_, ?_⟩ <;>
          simp [invalidArgsRejected, do_cd, do_md, do_rm, do_rmr, do_mpyc,
            parseFileNames, htk, hargs, hfe, hrest, feCallsOf]

/-- Claim C3 witness: two tokens make `cd` display an error and invoke
nothing. -/
theorem singlepath_invalid_args_witness :
    invalidArgsRejected (do_cd (fun _ => (["a", "b"], "")) ⟨none, "mpfs [/]> "⟩ "a b") :=
  (singlepath_invalid_args (fun _ => (["a", "b"], "")) ⟨none, "mpfs [/]> "⟩ "a b"
    (Or.inr (Or.inr (by decide)))).1

/-- Helper: under the tracked-directory invariant, `do_ls` neither
changes the shell state nor lets an error escape. -/
theorem ls_frame (st : Shell) (dir : String) (f : Fe)
    (hfe : st.fe = some f) (hcwd : (f.fs.dirs.lookup f.cwd).isSome) :
    (do_ls st dir).st = st ∧ (do_ls st dir).escaped = none := by
  obtain ⟨fe0, prompt0⟩ := st
  simp only [Option.some.injEq] at hfe
  rw [show fe0 = some f from hfe]
  have holddir : f.cd f.pwd = .ok f := by
    show (if (List.lookup f.cwd f.fs.dirs).isSome = true then
        Except.ok { f with cwd := f.cwd } else
        Except.error (FErr.remoteIOError ("No such directory: " ++ f.cwd))) = Except.ok f
    rw [if_pos hcwd]
  by_cases hdir : dir = ""
  · subst hdir
    simp [do_ls]
  · rcases hcd : f.cd dir with e | f1
    · have hio : e.isIOError = true := by
        unfold Fe.cd at hcd
        split at hcd
        · simp at hcd
        · injection hcd with h2
          rw [← h2]
          rfl
      simp [do_ls, hdir, hcd, hio, holddir]
    · have hrestore : f1.cd f.pwd = .ok f := by
        have hf1 : f1 = { f with cwd := dir } := by
          unfold Fe.cd at hcd
          split at hcd
          · injection hcd with h2
            exact h2.symm
          · simp at hcd
        rw [hf1]
        show (if (List.lookup f.cwd f.fs.dirs).isSome = true then
            Except.ok { f with cwd := f.cwd } else
            Except.error (FErr.remoteIOError ("No such directory: " ++ f.cwd))) = Except.ok f
        rw [if_pos hcwd]
      simp [do_ls, hdir, hcd, hrestore]

/-- Claim C4: for every directory argument, after `do_ls` returns the
tracked current remote directory (indeed the whole shell state) equals
its value before the call, and no error escapes — given the invariant
that the tracked directory exists on the device. -/
theorem ls_preserves_cwd (st : Shell) (dir : String) (f : Fe)
    (hfe : st.fe = some f) (hcwd : (f.fs.dirs.lookup f.cwd).isSome) :
    (do_ls st dir).st = st ∧ (do_ls st dir).escaped = none :=
  ls_frame st dir f hfe hcwd

/-- Claim C4 witness: listing a missing directory with a valid tracked
directory leaves the shell state unchanged. -/
theorem ls_preserves_cwd_witness :
    (do_ls ⟨some ⟨⟨[("/", [])], []⟩, "/", [], [], none⟩, "mpfs [/]> "⟩ "sub").st
      = ⟨some ⟨⟨[("/", [])], []⟩, "/", [], [], none⟩, "mpfs [/]> "⟩ :=
  (ls_preserves_cwd ⟨some ⟨⟨[("/", [])], []⟩, "/", [], [], none⟩, "mpfs [/]> "⟩ "sub"
    ⟨⟨[("/", [])], []⟩, "/", [], [], none⟩ rfl (by decide)).1

/-- Claim C9: every session-requiring command first hits the
`__is_open` guard: with no open session (and a non-empty argument where
the handler validates arguments first) it prints the not-connected
message, changes nothing, performs no remote operation and lets nothing
escape. -/
theorem not_connected_guard (tok : Tok) (st : Shell) (args : String)
    (res : Except FErr (List Nat × List Nat))
    (hfe : st.fe = none) (hargs : args ≠ "") :
    do_ls st args = ⟨st, [.errorMsg notConnected], none⟩ ∧
    do_tree st args = ⟨st, [.errorMsg notConnected], none⟩ ∧
    do_pwd st args = ⟨st, [.errorMsg notConnected], none⟩ ∧
    do_cd tok st args = ⟨st, [.errorMsg notConnected], none⟩ ∧
    do_md tok st args = ⟨st, [.errorMsg notConnected], none⟩ ∧
    do_put tok st args = ⟨st, [.errorMsg notConnected], none⟩ ∧
    do_putr tok st args = ⟨st, [.errorMsg notConnected], none⟩ ∧
    do_mput st args = ⟨st, [.errorMsg notConnected], none⟩ ∧
    do_get tok st args = ⟨st, [.errorMsg notConnected], none⟩ ∧
    do_getr tok st args = ⟨st, [.errorMsg notConnected], none⟩ ∧
    do_mget st args = ⟨st, [.errorMsg notConnected], none⟩ ∧
    do_rm tok st args = ⟨st, [.errorMsg notConnected], none⟩ ∧
    do_rmr tok st args = ⟨st, [.errorMsg notConnected], none⟩ ∧
    do_mrm st args = ⟨st, [.errorMsg notConnected], none⟩ ∧
    do_cat tok st args = ⟨st, [.errorMsg notConnected], none⟩ ∧
    do_exec st args res = ⟨st, [.errorMsg notConnected], none⟩ ∧
    do_repl true st args = ⟨st, [.errorMsg notConnected], none⟩ := by
  refine ⟨?_, ?_, ?_, ?_, ?_, ?_, ?_, ?_, ?_, ?_, ?_, ?_, ?_, ?_, ?_, ?_, ?_⟩ <;>
    simp [do_ls, do_tree, do_pwd, do_cd, do_md, do_put, do_putr, do_mput, do_get,
      do_getr, do_mget, do_rm, do_rmr, do_mrm, do_cat, do_exec, do_repl, hfe, hargs]

/-- Claim C9 witness: a concrete disconnected `ls`. -/
theorem not_connected_guard_witness :
    do_ls ⟨none, "mpfs [/]> "⟩ "lib" = ⟨⟨none, "mpfs [/]> "⟩, [.errorMsg notConnected], none⟩ :=
  (not_connected_guard (fun _ => ([], "")) ⟨none, "mpfs [/]> "⟩ "lib" (.ok ([], []))
    rfl (by decide)).1

/-- Claim C7 counterexample: in the `tree` handler the initial
`self.fe.cd(directory)` sits outside any `try`, so the `RemoteIOError`
raised for a missing directory escapes the handler instead of being
caught and reported. -/
theorem tree_error_escapes :
    (do_tree ⟨some ⟨⟨[("/", [])], []⟩, "/", [], [], none⟩, "mpfs [/]> "⟩ "x").escaped
      = some (.remoteIOError "No such directory: x") := by
  decide

/-- Claim C7 amended: errors raised by the delegated File-Explorer
operation are handled per kind, not uniformly.  An IOError-kind error
(`RemoteIOError`/`IOError`) is caught and reported as a displayed
message by every listed handler except `tree`, where the initial change
of directory lets it escape (see the counterexample; for `ls` under the
tracked-directory invariant).  A protocol-kind error (`PyboardError`,
the spec's `ProtocolError`), which the File Explorer never swallows, is
caught and reported only by `rm` and `rmr`; from `md`, `put`, `putr`,
`mput`, `get`, `getr`, `mget`, `mrm` and `cat` it escapes the handler
to abort the shell. -/
theorem handlers_catch_fe_errors (tok : Tok) (st : Shell) (args : String) (f : Fe)
    (hfe : st.fe = some f) (hcwd : (f.fs.dirs.lookup f.cwd).isSome) :
    ((do_ls st args).escaped = none) ∧
    (∀ e, args ≠ "" → f.cd args = .error e →
      Out.errorMsg e.msg ∈ (do_ls st args).out) ∧
    (∀ p e, args ≠ "" → tok args = ([p], "") → f.cd p = .error e →
      (do_cd tok st args).escaped = none ∧
      Out.errorMsg e.msg ∈ (do_cd tok st args).out) ∧
    (∀ p e, args ≠ "" → tok args = ([p], "") → f.md p = .error e →
      (e.isIOError = true → (do_md tok st args).escaped = none ∧
        Out.errorMsg e.msg ∈ (do_md tok st args).out) ∧
      (∀ m, e = .pyboardError m → (do_md tok st args).escaped = some e)) ∧
    (∀ p e, args ≠ "" → tok args = ([p], "") → f.rm p = .error e →
      (e.isIOError = true → (do_rm tok st args).escaped = none ∧
        Out.errorMsg e.msg ∈ (do_rm tok st args).out) ∧
      (∀ m, e = .pyboardError m → (do_rm tok st args).escaped = none ∧
        Out.errorMsg "Unable to send request to device" ∈ (do_rm tok st args).out)) ∧
    (∀ p e, args ≠ "" → tok args = ([p], "") → f.rmr p = .error e →
      (e.isIOError = true → (do_rmr tok st args).escaped = none ∧
        Out.errorMsg e.msg ∈ (do_rmr tok st args).out) ∧
      (∀ m, e = .pyboardError m → (do_rmr tok st args).escaped = none ∧
        Out.errorMsg "Unable to send request to device" ∈ (do_rmr tok st args).out)) ∧
    (∀ p e, args ≠ "" → tok args = ([p], "") → f.put p none = .error e →
      (e.isIOError = true → (do_put tok st args).escaped = none ∧
        Out.errorMsg e.msg ∈ (do_put tok st args).out) ∧
      (∀ m, e = .pyboardError m → (do_put tok st args).escaped = some e)) ∧
    (∀ p e, args ≠ "" → tok args = ([p], "") → f.putr p none = .error e →
      (e.isIOError = true → (do_putr tok st args).escaped = none ∧
        Out.errorMsg e.msg ∈ (do_putr tok st args).out) ∧
      (∀ m, e = .pyboardError m → (do_putr tok st args).escaped = some e)) ∧
    (∀ p e, args ≠ "" → tok args = ([p], "") → f.get p none = .error e →
      (e.isIOError = true → (do_get tok st args).escaped = none ∧
        Out.errorMsg e.msg ∈ (do_get tok st args).out) ∧
      (∀ m, e = .pyboardError m → (do_get tok st args).escaped = some e)) ∧
    (∀ p e, args ≠ "" → tok args = ([p], "") → f.getr p none = .error e →
      (e.isIOError = true → (do_getr tok st args).escaped = none ∧
        Out.errorMsg e.msg ∈ (do_getr tok st args).out) ∧
      (∀ m, e = .pyboardError m → (do_getr tok st args).escaped = some e)) ∧
    (∀ p e, args ≠ "" → tok args = ([p], "") → f.gets p = .error e →
      (e.isIOError = true → (do_cat tok st args).escaped = none ∧
        Out.errorMsg e.msg ∈ (do_cat tok st args).out) ∧
      (∀ m, e = .pyboardError m → (do_cat tok st args).escaped = some e)) ∧
    (∀ p e, args ≠ "" → tok args = ([p], "") → f.mpyCross p = .error e →
      (do_mpyc tok st args).escaped = none ∧
      Out.errorMsg e.msg ∈ (do_mpyc tok st args).out) ∧
    (∀ m, args ≠ "" → f.mput args = .error (.pyboardError m) →
      (do_mput st args).escaped = some (.pyboardError m)) ∧
    (∀ e, args ≠ "" → f.mget args = .error e →
      (e.isIOError = true → (do_mget st args).escaped = none ∧
        Out.errorMsg e.msg ∈ (do_mget st args).out) ∧
      (∀ m, e = .pyboardError m → (do_mget st args).escaped = some e)) ∧
    (∀ e, args ≠ "" → f.mrm args = .error e →
      (e.isIOError = true → (do_mrm st args).escaped = none ∧
        Out.errorMsg e.msg ∈ (do_mrm st args).out) ∧
      (∀ m, e = .pyboardError m → (do_mrm st args).escaped = some e)) := by
  have hlse : (do_ls st args).escaped = none := (ls_frame st args f hfe hcwd).2
  have hlsrep : ∀ e, args ≠ "" → f.cd args = .error e →
      Out.errorMsg e.msg ∈ (do_ls st args).out := by
    intro e hargs hop
    have hio : e.isIOError = true := by
      unfold Fe.cd at hop
      split at hop
      · simp at hop
      · injection hop with h2
        rw [← h2]
        rfl
    rcases hrest : f.cd f.pwd with e2 | f2 <;>
      simp [do_ls, hfe, hargs, hop, hio, hrest]
  have hcd : ∀ p e, args ≠ "" → tok args = ([p], "") → f.cd p = .error e →
      (do_cd tok st args).escaped = none ∧
      Out.errorMsg e.msg ∈ (do_cd tok st args).out := by
    intro p e hargs htok hop
    have hio : e.isIOError = true := by
      unfold Fe.cd at hop
      split at hop
      · simp at hop
      · injection hop with h2
        rw [← h2]
        rfl
    simp [do_cd, hfe, hargs, parseFileNames, htok, hop, hio]
  have hmd : ∀ p e, args ≠ "" → tok args = ([p], "") → f.md p = .error e →
      (e.isIOError = true → (do_md tok st args).escaped = none ∧
        Out.errorMsg e.msg ∈ (do_md tok st args).out) ∧
      (∀ m, e = .pyboardError m → (do_md tok st args).escaped = some e) := by
    intro p e hargs htok hop
    constructor
    · intro hio
      simp [do_md, hfe, hargs, parseFileNames, htok, hop, hio]
    · intro m hm
      subst hm
      simp [do_md, hfe, hargs, parseFileNames, htok, hop, FErr.isIOError]
  have hrm : ∀ p e, args ≠ "" → tok args = ([p], "") → f.rm p = .error e →
      (e.isIOError = true → (do_rm tok st args).escaped = none ∧
        Out.errorMsg e.msg ∈ (do_rm tok st args).out) ∧
      (∀ m, e = .pyboardError m → (do_rm tok st args).escaped = none ∧
        Out.errorMsg "Unable to send request to device" ∈ (do_rm tok st args).out) := by
    intro p e hargs htok hop
    constructor
    · intro hio
      simp [do_rm, hfe, hargs, parseFileNames, htok, hop, hio]
    · intro m hm
      subst hm
      simp [do_rm, hfe, hargs, parseFileNames, htok, hop, FErr.isIOError]
  have hrmr : ∀ p e, args ≠ "" → tok args = ([p], "") → f.rmr p = .error e →
      (e.isIOError = true → (do_rmr tok st args).escaped = none ∧
        Out.errorMsg e.msg ∈ (do_rmr tok st args).out) ∧
      (∀ m, e = .pyboardError m → (do_rmr tok st args).escaped = none ∧
        Out.errorMsg "Unable to send request to device" ∈ (do_rmr tok st args).out) := by
    intro p e hargs htok hop
    constructor
    · intro hio
      simp [do_rmr, hfe, hargs, parseFileNames, htok, hop, hio]
    · intro m hm
      subst hm
      simp [do_rmr, hfe, hargs, parseFileNames, htok, hop, FErr.isIOError]
  have hput : ∀ p e, args ≠ "" → tok args = ([p], "") → f.put p none = .error e →
      (e.isIOError = true → (do_put tok st args).escaped = none ∧
        Out.errorMsg e.msg ∈ (do_put tok st args).out) ∧
      (∀ m, e = .pyboardError m → (do_put tok st args).escaped = some e) := by
    intro p e hargs htok hop
    constructor
    · intro hio
      simp [do_put, hfe, hargs, parseFileNames, htok, hop, hio]
    · intro m hm
      subst hm
      simp [do_put, hfe, hargs, parseFileNames, htok, hop, FErr.isIOError]
  have hputr : ∀ p e, args ≠ "" → tok args = ([p], "") → f.putr p none = .error e →
      (e.isIOError = true → (do_putr tok st args).escaped = none ∧
        Out.errorMsg e.msg ∈ (do_putr tok st args).out) ∧
      (∀ m, e = .pyboardError m → (do_putr tok st args).escaped = some e) := by
    intro p e hargs htok hop
    constructor
    · intro hio
      simp [do_putr, hfe, hargs, parseFileNames, htok, hop, hio]
    · intro m hm
      subst hm
      simp [do_putr, hfe, hargs, parseFileNames, htok, hop, FErr.isIOError]
  have hget : ∀ p e, args ≠ "" → tok args = ([p], "") → f.get p none = .error e →
      (e.isIOError = true → (do_get tok st args).escaped = none ∧
        Out.errorMsg e.msg ∈ (do_get tok st args).out) ∧
      (∀ m, e = .pyboardError m → (do_get tok st args).escaped = some e) := by
    intro p e hargs htok hop
    constructor
    · intro hio
      simp [do_get, hfe, hargs, parseFileNames, htok, hop, hio]
    · intro m hm
      subst hm
      simp [do_get, hfe, hargs, parseFileNames, htok, hop, FErr.isIOError]
  have hgetr : ∀ p e, args ≠ "" → tok args = ([p], "") → f.getr p none = .error e →
      (e.isIOError = true → (do_getr tok st args).escaped = none ∧
        Out.errorMsg e.msg ∈ (do_getr tok st args).out) ∧
      (∀ m, e = .pyboardError m → (do_getr tok st args).escaped = some e) := by
    intro p e hargs htok hop
    constructor
    · intro hio
      simp [do_getr, hfe, hargs, parseFileNames, htok, hop, hio]
    · intro m hm
      subst hm
      simp [do_getr, hfe, hargs, parseFileNames, htok, hop, FErr.isIOError]
  have hcat : ∀ p e, args ≠ "" → tok args = ([p], "") → f.gets p = .error e →
      (e.isIOError = true → (do_cat tok st args).escaped = none ∧
        Out.errorMsg e.msg ∈ (do_cat tok st args).out) ∧
      (∀ m, e = .pyboardError m → (do_cat tok st args).escaped = some e) := by
    intro p e hargs htok hop
    constructor
    · intro hio
      simp [do_cat, hfe, hargs, parseFileNames, htok, hop, hio]
    · intro m hm
      subst hm
      simp [do_cat, hfe, hargs, parseFileNames, htok, hop, FErr.isIOError]
  have hmpyc : ∀ p e, args ≠ "" → tok args = ([p], "") → f.mpyCross p = .error e →
      (do_mpyc tok st args).escaped = none ∧
      Out.errorMsg e.msg ∈ (do_mpyc tok st args).out := by
    intro p e hargs htok hop
    have hio : e.isIOError = true := by
      unfold Fe.mpyCross at hop
      split at hop
      · simp at hop
      · injection hop with h2
        rw [← h2]
        rfl
    simp [do_mpyc, hfe, hargs, parseFileNames, htok, hop, hio]
  have hmput : ∀ m, args ≠ "" → f.mput args = .error (.pyboardError m) →
      (do_mput st args).escaped = some (.pyboardError m) := by
    intro m hargs hop
    simp [do_mput, hfe, hargs, hop, FErr.isIOError]
  have hmget : ∀ e, args ≠ "" → f.mget args = .error e →
      (e.isIOError = true → (do_mget st args).escaped = none ∧
        Out.errorMsg e.msg ∈ (do_mget st args).out) ∧
      (∀ m, e = .pyboardError m → (do_mget st args).escaped = some e) := by
    intro e hargs hop
    constructor
    · intro hio
      simp [do_mget, hfe, hargs, hop, hio]
    · intro m hm
      subst hm
      simp [do_mget, hfe, hargs, hop, FErr.isIOError]
  have hmrm : ∀ e, args ≠ "" → f.mrm args = .error e →
      (e.isIOError = true → (do_mrm st args).escaped = none ∧
        Out.errorMsg e.msg ∈ (do_mrm st args).out) ∧
      (∀ m, e = .pyboardError m → (do_mrm st args).escaped = some e) := by
    intro e hargs hop
    constructor
    · intro hio
      simp [do_mrm, hfe, hargs, hop, hio]
    · intro m hm
      subst hm
      simp [do_mrm, hfe, hargs, hop, FErr.isIOError]
  exact ⟨hlse, hlsrep, hcd, hmd, hrm, hrmr, hput, hputr, hget, hgetr, hcat, hmpyc,
    hmput, hmget, hmrm⟩

/-- Claim C7 amended witness: a concrete failing `rmr` is caught and its
error reported. -/
theorem handlers_catch_fe_errors_witness :
    Out.errorMsg "No such directory: /x" ∈
      (do_rmr (fun _ => (["/x"], ""))
        ⟨some ⟨⟨[("/", [])], []⟩, "/", [], [], none⟩, "mpfs [/]> "⟩ "/x").out :=
  (((handlers_catch_fe_errors (fun _ => (["/x"], ""))
      ⟨some ⟨⟨[("/", [])], []⟩, "/", [], [], none⟩, "mpfs [/]> "⟩ "/x"
      ⟨⟨[("/", [])], []⟩, "/", [], [], none⟩ rfl (by decide)).2.2.2.2.2.1
    "/x" (.remoteIOError "No such directory: /x") (by decide) rfl rfl).1 rfl).2

/-- `nameLE` is transitive. -/
theorem nameLE_trans : ∀ a b c : String × Char,
    nameLE a b → nameLE b c → nameLE a c := by
  intro a b c h1 h2
  simp only [nameLE, decide_eq_true_eq] at h1 h2 ⊢
  exact le_trans h1 h2

/-- `nameLE` is total. -/
theorem nameLE_total : ∀ a b : String × Char, nameLE a b || nameLE b a := by
  intro a b
  simp only [nameLE, Bool.or_eq_true, decide_eq_true_eq]
  exact le_total a.1 b.1

/-- `kindLE` is transitive. -/
theorem kindLE_trans : ∀ a b c : String × Char,
    kindLE a b → kindLE b c → kindLE a c := by
  intro a b c h1 h2
  simp only [kindLE, decide_eq_true_eq] at h1 h2 ⊢
  exact le_trans h1 h2

/-- `kindLE` is total. -/
theorem kindLE_total : ∀ a b : String × Char, kindLE a b || kindLE b a := by
  intro a b
  simp only [kindLE, Bool.or_eq_true, decide_eq_true_eq]
  exact le_total a.2 b.2

/-- The display order claim C10 asserts: directories (`'D'`) come before
files (`'F'`), and entries of equal kind are in alphabetical order. -/
def entryLE (a b : String × Char) : Prop :=
  (a.2 = 'D' ∧ b.2 = 'F') ∨ (a.2 = b.2 ∧ a.1 ≤ b.1)

/-- The double sort is a permutation: membership is preserved. -/
theorem mem_sortEntries {e : String × Char} {l : List (String × Char)} :
    e ∈ sortEntries l ↔ e ∈ l := by
  unfold sortEntries
  rw [(List.mergeSort_perm _ kindLE).mem_iff, (List.mergeSort_perm _ nameLE).mem_iff]

/-- Sorting a name-sorted list by kind with the stable `mergeSort` yields
the directories-first, alphabetical-within-kind order. -/
theorem mergeSort_kind_pairwise (m : List (String × Char))
    (hmname : m.Pairwise (fun a b => nameLE a b = true))
    (hmk : ∀ e ∈ m, e.2 = 'D' ∨ e.2 = 'F') :
    (m.mergeSort kindLE).Pairwise entryLE := by
  have hfinal : m.mergeSort kindLE
      = (List.mergeSort m.enum (List.enumLE kindLE)).map (·.2) :=
    (List.mergeSort_enum).symm
  rw [hfinal, List.pairwise_map]
  have hE : (List.mergeSort m.enum (List.enumLE kindLE)).Pairwise
      (fun a b => List.enumLE kindLE a b = true) :=
    List.sorted_mergeSort (List.enumLE_trans kindLE_trans) (List.enumLE_total kindLE_total) _
  refine List.Pairwise.imp_of_mem ?_ hE
  intro p q hpmem hqmem hle
  obtain ⟨pi, pv⟩ := p
  obtain ⟨qi, qv⟩ := q
  have hp : m[pi]? = some pv := List.mk_mem_enum_iff_getElem?.mp
    ((List.mergeSort_perm _ (List.enumLE kindLE)).mem_iff.mp hpmem)
  have hq : m[qi]? = some qv := List.mk_mem_enum_iff_getElem?.mp
    ((List.mergeSort_perm _ (List.enumLE kindLE)).mem_iff.mp hqmem)
  have hpm : pv ∈ m := List.getElem?_mem hp
  have hqm : qv ∈ m := List.getElem?_mem hq
  simp only [List.enumLE] at hle
  by_cases h1 : kindLE pv qv = true
  · by_cases h2 : kindLE qv pv = true
    · rw [if_pos h1, if_pos h2] at hle
      have hij : pi ≤ qi := by simpa using hle
      have hkind : pv.2 = qv.2 := by
        have ha : pv.2 ≤ qv.2 := by simpa [kindLE] using h1
        have hb : qv.2 ≤ pv.2 := by simpa [kindLE] using h2
        exact le_antisymm ha hb
      rcases Nat.lt_or_ge pi qi with hlt | hge
      · obtain ⟨hplen, hpe⟩ := List.getElem?_eq_some_iff.mp hp
        obtain ⟨hqlen, hqe⟩ := List.getElem?_eq_some_iff.mp hq
        have hnm := List.pairwise_iff_getElem.mp hmname pi qi hplen hqlen hlt
        rw [hpe, hqe] at hnm
        right
        refine ⟨hkind, ?_⟩
        simpa [nameLE] using hnm
      · have heq : pi = qi := Nat.le_antisymm hij hge
        rw [heq, hq] at hp
        injection hp with hp2
        right
        refine ⟨hkind, ?_⟩
        rw [hp2]
    · rw [if_pos h1, if_neg h2] at hle
      have ha : pv.2 ≤ qv.2 := by simpa [kindLE] using h1
      have hb : ¬ qv.2 ≤ pv.2 := by simpa [kindLE] using h2
      left
      rcases hmk pv hpm with hpD | hpF
      · rcases hmk qv hqm with hqD | hqF
        · exact absurd (by rw [hqD, hpD] : qv.2 ≤ pv.2) hb
        · exact ⟨hpD, hqF⟩
      · exfalso
        rcases hmk qv hqm with hqD | hqF
        · rw [hpF, hqD] at ha
          exact absurd ha (by decide)
        · rw [hpF, hqF] at hb
          exact hb le_rfl
  · rw [if_neg h1] at hle
    exact absurd hle (by simp)

/-- The double stable sort of the listing is ordered by `entryLE`. -/
theorem sortEntries_pairwise (l : List (String × Char))
    (hk : ∀ e ∈ l, e.2 = 'D' ∨ e.2 = 'F') :
    (sortEntries l).Pairwise entryLE := by
  unfold sortEntries
  exact mergeSort_kind_pairwise _ (List.sorted_mergeSort nameLE_trans nameLE_total l)
    (fun e he => hk e ((List.mergeSort_perm l nameLE).mem_iff.mp he))

/-- Claim C10: in every listing displayed by `ls`, a `("..", 'D')` entry
is added when the current remote directory is not `"/"`, and the
displayed entries are ordered with all directories before all files,
alphabetically by name within each kind. -/
theorem ls_listing_order (pwd : String) (files : List (String × Char))
    (hk : ∀ e ∈ files, e.2 = 'D' ∨ e.2 = 'F') :
    (pwd ≠ "/" → ("..", 'D') ∈ displayList pwd files) ∧
    (displayList pwd files).Pairwise entryLE := by
  constructor
  · intro hp
    unfold displayList
    rw [if_pos hp, mem_sortEntries]
    exact List.mem_cons_self _ _
  · unfold displayList
    split
    · refine sortEntries_pairwise _ ?_
      intro e he
      rcases List.mem_cons.mp he with rfl | he
      · exact Or.inl rfl
      · exact hk e he
    · exact sortEntries_pairwise _ hk

/-- Claim C10 witness: a concrete listing in a non-root directory gets
the parent entry and the directories-first alphabetical order. -/
theorem ls_listing_order_witness :
    ("..", 'D') ∈ displayList "/lib" [("b", 'F'), ("a", 'D')] :=
  (ls_listing_order "/lib" [("b", 'F'), ("a", 'D')] (by decide)).1 (by decide)

end Mpfs







